import Mathlib

/-!
Verification development for a minimal Koa-style HTTP middleware framework.

The JavaScript sources embedded here:
* `src/lib/koa-compose.js` — the middleware composition engine (`compose` / `dispatch`);
* `src/lib/response.js`    — the response facade (status / body / type / length setters,
  `redirect`, header operations, `writable`);
* `src/unnamed/part_000`   — the request facade (`path` / `querystring` getters and setters
  over `parseurl` + `url.format`);
* `src/lib/application.js` — the dispatcher's terminal `respond` step.

Middleware are arbitrary async JavaScript functions; here they are embedded as
well-founded trees (`Mw`): a middleware either returns, throws, or invokes its
`next` continuation and continues depending on the settled outcome of that call
(this models `await next()` together with any `try`/`catch` around it).
Promise results are `Except Err Unit`; the mutable dispatch cursor (`index` in
the source) is threaded explicitly as an `Int` state (initially `-1`).
-/

namespace Koa

/-- Errors observable from a pipeline run: the internal "next() called multiple
times" error created by `dispatch`, or an arbitrary user error thrown by a
middleware (payload abstracted as a `Nat`). -/
inductive Err where
  | multipleNext : Err
  | user : Nat → Err
deriving DecidableEq, Repr

/-- One middleware body, as the tree of its interactions with `next`:
`ret` resolves, `throw` rejects, and `callNext k` invokes the `next`
continuation once and continues as `k outcome` (so `k` encodes both plain
`await next()` propagation and `try { await next() } catch`-style handling). -/
inductive Mw where
  | ret : Mw
  | throw : Err → Mw
  | callNext : (Except Err Unit → Mw) → Mw

/-- Outcome of running a middleware or a dispatch: the settled promise value,
the final value of the shared `index` cursor, and the list of middleware-stack
indices that were actually invoked (in invocation order). -/
abbrev Outcome := Except Err Unit × Int × List Nat

/-- Run one middleware body at stack slot with cursor state `index`, where
`nd` is the bound `dispatch(i + 1, ·)` continuation (state-passing form of the
shared mutable `index`). Each `callNext` performs one `next()` call. -/
def runMw (nd : Int → Outcome) : Mw → Int → Outcome
  | .ret, index => (.ok (), index, [])
  | .throw e, index => (.error e, index, [])
  | .callNext k, index =>
      let o1 := nd index
      let o2 := runMw nd (k o1.1) o1.2.1
      (o2.1, o2.2.1, o1.2.2 ++ o2.2.2)

/-- The `dispatch` function from `src/lib/koa-compose.js` (lines 37–52):
rejects when `i <= index`, then sets `index = i`, selects `middleware[i]`
(falling through to the optional terminal `next` when `i === middleware.length`,
and resolving when no function is found), and runs it with `dispatch.bind(null, i+1)`.
The trace records each stack index `i < middleware.length` whose function ran. -/
def dispatch (mws : List Mw) (onext : Option Mw) (i : Nat) (index : Int) : Outcome :=
  if (i : Int) ≤ index then (.error .multipleNext, index, [])
  else if _h : i ≤ mws.length then
    match (if i = mws.length then onext else mws[i]?) with
    | none => (.ok (), (i : Int), [])
    | some m =>
        let out := runMw (fun idx => dispatch mws onext (i + 1) idx) m (i : Int)
        if i < mws.length then (out.1, out.2.1, i :: out.2.2) else out
  else (.ok (), (i : Int), [])
termination_by mws.length + 1 - i
decreasing_by omega

/-- Invoking the composed pipeline returned by `compose(middleware)` on a
context, with no terminal `next` (this is how `application.js` invokes it):
`index = -1; return dispatch(0)`. -/
def composeRun (mws : List Mw) : Outcome :=
  dispatch mws none 0 (-1)

/-- A plain well-behaved middleware: `await next()` once and propagate any
rejection (no `catch`). -/
def mwOnce : Mw :=
  .callNext (fun r => match r with | .ok _ => .ret | .error e => .throw e)

/-- A middleware that calls `next()` twice in sequence, awaiting each call and
propagating rejections. -/
def mwTwice : Mw :=
  .callNext (fun r => match r with | .ok _ => mwOnce | .error e => .throw e)

/-- A middleware that wraps `await next()` in `try { } catch { }` and swallows
any rejection. -/
def mwCatch : Mw :=
  .callNext (fun _ => .ret)

/-- JavaScript values, as far as the `compose` argument validation inspects
them: `Array.isArray` and `typeof fn === 'function'`. A function value carries
its middleware behaviour. -/
inductive JsVal where
  | vfn : Mw → JsVal
  | vnum : Int → JsVal
  | vstr : String → JsVal
  | vbool : Bool → JsVal
  | vnull : JsVal
  | vundef : JsVal
  | varr : List JsVal → JsVal
  | vobj : JsVal

/-- The two `TypeError`s thrown by `compose` at construction time. -/
inductive ComposeErr where
  | notArray : ComposeErr
  | notFunction : ComposeErr
deriving DecidableEq, Repr

/-- The `for (const fn of middleware)` validation loop: the first element that
is not a function throws `TypeError('Middleware must be composed of functions!')`. -/
def extractFns : List JsVal → Except ComposeErr (List Mw)
  | [] => .ok []
  | .vfn m :: rest => (extractFns rest).map (m :: ·)
  | _ :: _ => .error .notFunction

/-- The `compose(middleware)` constructor from `src/lib/koa-compose.js`
(lines 19–25): throws `TypeError('Middleware stack must be an array!')` for a
non-array argument, validates every element, and otherwise returns the checked
middleware list (the composed callable runs it via `dispatch`). The `Except`
is the value of the constructor call itself, so a `.error` is raised before any
pipeline invocation. -/
def compose (v : JsVal) : Except ComposeErr (List Mw) :=
  match v with
  | .varr l => extractFns l
  | _ => .error .notArray

/-! ## Response facade (`src/lib/response.js`) -/

/-- Payload of a JSON body (a body that is neither `null`, a string, a buffer,
nor a stream). Only the shape needed by truthiness checks and
`JSON.stringify` is kept: a number, a boolean, or an opaque object. -/
inductive Jv where
  | num : Int → Jv
  | bool : Bool → Jv
  | obj : Jv
deriving DecidableEq, Repr

/-- JavaScript truthiness of a JSON payload. -/
def jvTruthy : Jv → Bool
  | .num n => n ≠ 0
  | .bool b => b
  | .obj => true

/-- The response body tagged union from the spec's data model: absent (`null`),
string, byte buffer, streaming source (identified opaquely), or
JSON-serializable value. -/
inductive Body where
  | null : Body
  | str : String → Body
  | buf : List Nat → Body
  | stream : Nat → Body
  | json : Jv → Body
deriving DecidableEq, Repr

/-- JavaScript truthiness of a body value (`if (this.body ...)` in the status
setter): `null`, the empty string, `0` and `false` are falsy; buffers and
streams are objects, hence always truthy. -/
def bodyTruthy : Body → Bool
  | .null => false
  | .str s => s ≠ ""
  | .buf _ => true
  | .stream _ => true
  | .json j => jvTruthy j

/-- Modelled from the spec: the external `statuses.empty` table of
body-forbidden status codes (204, 205, 304). -/
def statusEmpty (c : Int) : Bool :=
  c = 204 || c = 205 || c = 304

/-- Modelled from the spec: the external `statuses.redirect` table
(300, 301, 302, 303, 305, 307, 308). -/
def statusRedirect (c : Int) : Bool :=
  c = 300 || c = 301 || c = 302 || c = 303 || c = 305 || c = 307 || c = 308

/-- Modelled from the spec: the external `statuses` code→phrase table
(collaborator library), restricted to the codes this development exercises;
unknown codes map to the empty string (undefined). -/
def statusMessageOf (c : Int) : String :=
  if c = 200 then "OK"
  else if c = 204 then "No Content"
  else if c = 302 then "Found"
  else if c = 304 then "Not Modified"
  else if c = 404 then "Not Found"
  else ""

/-- Modelled from the spec: the external `cache-content-type` MIME lookup
(collaborator library), restricted to the inputs the embedded code uses.
Short names resolve to canonical content-type strings; a full type that
already carries a charset is returned unchanged; anything unresolvable yields
`none` (falsy), which makes the `type` setter remove the header. -/
def getType : String → Option String
  | "html" => some "text/html; charset=utf-8"
  | "text" => some "text/plain; charset=utf-8"
  | "bin" => some "application/octet-stream"
  | "json" => some "application/json; charset=utf-8"
  | "text/html; charset=utf-8" => some "text/html; charset=utf-8"
  | "text/plain; charset=utf-8" => some "text/plain; charset=utf-8"
  | _ => none

/-- Modelled from the spec: the external `escape-html` collaborator used by
`redirect`; replaces the five HTML-significant characters by entities. -/
def escapeHtmlChar (c : Char) : List Char :=
  if c = '&' then "&amp;".data
  else if c = '<' then "&lt;".data
  else if c = '>' then "&gt;".data
  else if c = '"' then "&quot;".data
  else if c = '\'' then "&#39;".data
  else [c]

/-- Modelled from the spec: `escape(url)` over a whole string. -/
def escapeHtml (s : String) : String :=
  String.mk ((s.data.map escapeHtmlChar).flatten)

/-- Byte length of a string body (`Buffer.byteLength`, UTF-8). -/
def utf8Len (s : String) : Nat :=
  s.utf8ByteSize

/-- Insert-or-replace in the raw header store (Node `res.setHeader`; keys are
kept lowercased, mirroring what `res.getHeaders()` exposes). -/
def putH : List (String × String) → String → String → List (String × String)
  | [], f, v => [(f, v)]
  | (k, w) :: rest, f, v =>
      if k = f then (f, v) :: rest else (k, w) :: putH rest f v

/-- Deletion in the raw header store (Node `res.removeHeader`). -/
def delH : List (String × String) → String → List (String × String)
  | [], _ => []
  | (k, w) :: rest, f =>
      if k = f then delH rest f else (k, w) :: delH rest f

/-- Lookup in the raw header store. -/
def getHd (hs : List (String × String)) (f : String) : Option String :=
  (hs.find? (fun p => p.1 = f)).map (·.2)

/-- The response facade state: the raw Node response fields it reads and
writes (`statusCode`, `statusMessage`, headers, `headersSent`, `finished`,
socket writability) merged with the facade's own fields (`_body`,
`_explicitStatus`) and the request's `httpVersionMajor` that the status setter
consults. `socket = none` models an absent socket; `some w` a socket with
writability `w`. -/
structure Response where
  statusCode : Int
  statusMessage : String
  headers : List (String × String)
  headersSent : Bool
  finished : Bool
  socket : Option Bool
  body : Body
  explicitStatus : Bool
  httpVersionMajor : Nat
deriving DecidableEq, Repr

/-- ASCII lowercasing of one character, as `String.prototype.toLowerCase`
acts on the ASCII header names used here. -/
def lowerChar (c : Char) : Char :=
  if 'A' ≤ c ∧ c ≤ 'Z' then Char.ofNat (c.toNat + 32) else c

/-- ASCII lowercasing of a header field name (Node stores response header
keys lowercased; `field.toLowerCase()` on reads). -/
def lowerS (s : String) : String :=
  String.mk (s.data.map lowerChar)

/-- Header read on the facade (`this.header[field.toLowerCase()]`; `none` when
absent). -/
def getH (r : Response) (f : String) : Option String :=
  getHd r.headers (lowerS f)

/-- JavaScript falsiness of a header slot (`!this.header['content-type']`):
absent or the empty string. -/
def headerFalsy (r : Response) (f : String) : Bool :=
  match getH r f with
  | none => true
  | some v => v = ""

/-- The `set(field, val)` mutator (scalar form) from `src/lib/response.js`
(lines 502–518): a no-op once headers are sent. -/
def setH (r : Response) (f : String) (v : String) : Response :=
  if r.headersSent then r
  else { r with headers := putH r.headers (lowerS f) v }

/-- The `remove(field)` mutator (lines 559–564): a no-op once headers are sent. -/
def removeH (r : Response) (f : String) : Response :=
  if r.headersSent then r
  else { r with headers := delH r.headers (lowerS f) }

/-- The `type` setter (lines 358–370): resolve through the MIME lookup; set
`Content-Type` when resolvable, remove it otherwise. -/
def setTypeS (r : Response) (t : String) : Response :=
  match getType t with
  | some ct => setH r "Content-Type" ct
  | none => removeH r "Content-Type"

/-- The `length` setter (lines 218–221): `this.set('Content-Length', n)`
(the number is coerced to a string by `set`). -/
def setLength (r : Response) (n : Nat) : Response :=
  setH r "Content-Length" (toString n)

/-- The whitespace class of the JavaScript `\s` used by the `/^\s*</` body
sniff, restricted to the ASCII whitespace characters. -/
def isJsWhitespace (c : Char) : Bool :=
  c = ' ' || c = '\t' || c = '\n' || c = '\r' || c = '\x0b' || c = '\x0c'

/-- Test of the `/^\s*</` regular expression: first non-whitespace character
is `<`. -/
def leadingLtAux : List Char → Bool
  | [] => false
  | c :: cs => if c = '<' then true else if isJsWhitespace c then leadingLtAux cs else false

/-- Whether a string body looks like markup (`/^\s*</.test(val)`). -/
def leadingLt (s : String) : Bool :=
  leadingLtAux s.data

mutual

/-- The `status` setter from `src/lib/response.js` (lines 88–104): no-op when
headers are sent; asserts the code is in 100–999 (`Except.error` models the
thrown `AssertionError`; the integrality assertion cannot fail for an `Int`);
records the explicit-status flag, writes the raw status code, refreshes the
status message on HTTP/1.x, and nulls a truthy body when the new code is
body-forbidden (`this.body = null` re-enters the body setter; the body field is
untouched by the preceding record updates, so the guard reads `r.body`). -/
def setStatus (r : Response) (code : Int) : Except String Response :=
  if r.headersSent then .ok r
  else if ¬ (100 ≤ code ∧ code ≤ 999) then .error "invalid status code"
  else
    let r2 : Response :=
      { r with explicitStatus := true, statusCode := code,
               statusMessage := if r.httpVersionMajor < 2 then statusMessageOf code
                                else r.statusMessage }
    if bodyTruthy r.body && statusEmpty code then setBody r2 Body.null else .ok r2
termination_by if bodyTruthy r.body && statusEmpty code then 2 else 0
decreasing_by simp_all

/-- The `body` setter from `src/lib/response.js` (lines 149–209): stores the
new body, then
* `null` — force status 204 unless the current code is body-forbidden, and
  strip `Content-Type` / `Content-Length` / `Transfer-Encoding`;
* otherwise default the status to 200 when no explicit status was ever set,
  then branch on the body shape: strings sniff html-vs-text and set the byte
  length; buffers set type `bin` and their length; streams drop a stale
  `Content-Length` when overwriting a different body and set type `bin` (the
  `onFinish`/error-handler registrations are external side effects that do not
  touch facade state); everything else is JSON — drop `Content-Length` and set
  type `json`. Content-type is only defaulted when the current header is falsy. -/
def setBody (r : Response) (val : Body) : Except String Response :=
  let original := r.body
  let r0 : Response := { r with body := val }
  if val = Body.null then
    match (if ¬ statusEmpty r0.statusCode then setStatus r0 204 else .ok r0) with
    | .error e => .error e
    | .ok r1 =>
        .ok (removeH (removeH (removeH r1 "Content-Type") "Content-Length") "Transfer-Encoding")
  else
    match (if ¬ r0.explicitStatus then setStatus r0 200 else .ok r0) with
    | .error e => .error e
    | .ok r1 =>
        let shouldSetType := headerFalsy r1 "content-type"
        match val with
        | .null => .ok r1
        | .str s =>
            let r2 := if shouldSetType then setTypeS r1 (if leadingLt s then "html" else "text")
                      else r1
            .ok (setLength r2 (utf8Len s))
        | .buf b =>
            let r2 := if shouldSetType then setTypeS r1 "bin" else r1
            .ok (setLength r2 b.length)
        | .stream _ =>
            let r2 := if original ≠ Body.null ∧ original ≠ val then removeH r1 "Content-Length"
                      else r1
            let r3 := if shouldSetType then setTypeS r2 "bin" else r2
            .ok r3
        | .json _ =>
            let r2 := removeH r1 "Content-Length"
            .ok (setTypeS r2 "json")
termination_by if val = Body.null then 1 else 3
decreasing_by all_goals simp_all [bodyTruthy, statusEmpty]

end

/-- The `redirect(url, alt)` method from `src/lib/response.js` (lines 295–324).
The request-side inputs it consults are passed explicitly: `referrer` is
`this.ctx.get('Referrer')` (empty string when the header is absent) and
`acceptsHtml` is the truthiness of `this.ctx.accepts('html')`. `alt = none`
models an omitted argument; an empty-string `alt` is falsy and also falls
through to `"/"`. -/
def redirect (r : Response) (referrer : String) (acceptsHtml : Bool)
    (url : String) (alt : Option String) : Except String Response :=
  let url := if url = "back" then
               (if referrer ≠ "" then referrer
                else match alt with
                     | some a => if a ≠ "" then a else "/"
                     | none => "/")
             else url
  let r1 := setH r "Location" url
  match (if ¬ statusRedirect r1.statusCode then setStatus r1 302 else .ok r1) with
  | .error e => .error e
  | .ok r2 =>
      if acceptsHtml then
        let u2 := escapeHtml url
        let r3 := setTypeS r2 "text/html; charset=utf-8"
        setBody r3 (.str ("Redirecting to <a href=\x22" ++ u2 ++ "\x22>" ++ u2 ++ "</a>."))
      else
        let r3 := setTypeS r2 "text/plain; charset=utf-8"
        setBody r3 (.str ("Redirecting to " ++ url ++ "."))

/-- The `writable` getter from `src/lib/response.js` (lines 575–585): false
once the response has finished; true when no socket is attached yet; otherwise
the socket's own writability. -/
def respWritable (r : Response) : Bool :=
  if r.finished then false
  else match r.socket with
       | none => true
       | some w => w

/-- The response facade as freshly created per request by
`createContext`/`handleRequest`: default 404 status not yet explicitly set,
no headers written, nothing sent, no body, an attached writable socket,
HTTP/1.1. -/
def fresh0 : Response :=
  { statusCode := 404, statusMessage := "", headers := [], headersSent := false,
    finished := false, socket := some true, body := .null, explicitStatus := false,
    httpVersionMajor := 1 }

/-- Assigning `this.body = v` and then `this.status = c` on a facade. -/
def applyBodyThenStatus (r : Response) (v : Body) (c : Int) : Except String Response :=
  match setBody r v with
  | .error e => .error e
  | .ok r1 => setStatus r1 c

/-- Assigning `this.status = c` and then `this.body = v` on a facade. -/
def applyStatusThenBody (r : Response) (c : Int) (v : Body) : Except String Response :=
  match setStatus r c with
  | .error e => .error e
  | .ok r1 => setBody r1 v

/-! ## Request facade URL operations (`src/unnamed/part_000`)

The `path`/`querystring` accessors go through the external `parseurl` and
`url.format` collaborators. `parseurl`'s fast path for origin-form request
urls (those starting with `/`) splits at the first `?`: everything before is
`pathname`, everything from the `?` on is `search`, and `query` is `search`
without its leading `?`. The legacy `url.format` rebuilds
`pathname + search`, percent-escaping `?` and `#` in the pathname
(`encodeURIComponent`), prefixing `?` to a non-empty search that lacks one,
and replacing `#` by `%23` in the search. The request state these operations
touch is just the raw url string `req.url`. -/

/-- The parsed-url fields that `path`/`querystring` read and write. -/
structure UrlObj where
  pathname : Option String
  search : Option String
deriving DecidableEq, Repr

/-- Split a character list at the first `'?'`; the second component is empty
or starts with `'?'`. -/
def splitQ : List Char → List Char × List Char
  | [] => ([], [])
  | c :: cs =>
      if c = '?' then ([], c :: cs)
      else
        let p := splitQ cs
        (c :: p.1, p.2)

/-- Modelled from the spec: `parseurl` (external collaborator), fast path for
origin-form urls — pathname is the url up to the first `?`, search is the rest
including the `?`. -/
def parseUrl (u : String) : UrlObj :=
  let p := splitQ u.data
  if p.2 = [] then { pathname := some u, search := none }
  else { pathname := some (String.mk p.1), search := some (String.mk p.2) }

/-- Modelled from the spec: `url.format`'s `encodeURIComponent` escaping of
`?` and `#` inside the pathname. -/
def escPathChar (c : Char) : List Char :=
  if c = '?' then "%3F".data else if c = '#' then "%23".data else [c]

/-- Escape a whole pathname for `url.format`. -/
def escPath (s : String) : String :=
  String.mk ((s.data.map escPathChar).flatten)

/-- Modelled from the spec: `url.format`'s `search.replace(/#/g, '%23')`. -/
def escSearch (s : String) : String :=
  String.mk ((s.data.map (fun c => if c = '#' then "%23".data else [c])).flatten)

/-- Modelled from the spec: the legacy `url.format` restricted to the
pathname/search fields that `parseurl` produces for origin-form request urls
(no protocol, host or hash): escaped pathname, then the search with a `?`
prefixed when non-empty and missing, with `#` escaped. -/
def formatUrl (o : UrlObj) : String :=
  let pathname := match o.pathname with
                  | some p => escPath p
                  | none => ""
  let search0 := match o.search with
                 | some s => s
                 | none => ""
  let search1 := if search0 ≠ "" ∧ search0.data.head? ≠ some '?' then "?" ++ search0
                 else search0
  pathname ++ escSearch search1

/-- The `path` getter (`src/unnamed/part_000`, lines 156–159):
`parse(this.req).pathname`. -/
def getPath (u : String) : Option String :=
  (parseUrl u).pathname

/-- The `path` setter (lines 168–177): no-op when the pathname is unchanged,
otherwise rewrite the pathname (nulling the derived `path` field, which
`url.format` recomputes) and re-stringify the url. -/
def setPath (u : String) (p : String) : String :=
  let o := parseUrl u
  if o.pathname = some p then u
  else formatUrl { o with pathname := some p }

/-- The `querystring` getter (lines 215–219): `parse(this.req).query || ''`,
i.e. the search without its leading `?`, or the empty string. -/
def getQuerystring (u : String) : String :=
  match (parseUrl u).search with
  | some s => String.mk s.data.tail
  | none => ""

/-- The `querystring` setter (lines 228–237): no-op when the current search
already equals `'?' + str`, otherwise overwrite the search and re-stringify. -/
def setQuerystring (u : String) (s : String) : String :=
  let o := parseUrl u
  if o.search = some ("?" ++ s) then u
  else formatUrl { o with search := some s }

/-! ## Dispatcher terminal `respond` step (`src/lib/application.js`) -/

/-- What `respond` writes to the transport: end with no payload, end with a
string or buffer payload, or pipe a stream. -/
inductive Wire where
  | endEmpty : Wire
  | endStr : String → Wire
  | endBuf : List Nat → Wire
  | pipe : Nat → Wire
deriving DecidableEq, Repr

/-- The per-request context state that `respond` consults: the bypass flag
`ctx.respond` (`none` models undefined; the check is `false === ctx.respond`),
the response facade, and the request method. -/
structure Ctx where
  respondFlag : Option Bool
  response : Response
  method : String
deriving DecidableEq, Repr

/-- Modelled from the spec: the external `koa-is-json` collaborator — a body
is JSON when it is truthy and neither a string, a stream, nor a buffer. -/
def bodyIsJSON : Body → Bool
  | .json j => jvTruthy j
  | _ => false

/-- Modelled from the spec: `JSON.stringify` restricted to the JSON payloads
representable here. -/
def jvStringify : Jv → String
  | .num n => toString n
  | .bool b => cond b "true" "false"
  | .obj => "\x7b\x7d"

/-- Serialize a JSON body (only used on bodies `bodyIsJSON` accepts). -/
def bodyJsonStringify : Body → String
  | .json j => jvStringify j
  | _ => ""

/-- Ending the raw response (`res.end`): the headers go out and the response
finishes. -/
def endRes (r : Response) : Response :=
  { r with finished := true, headersSent := true }

/-- The `message` getter (`src/lib/response.js`, lines 113–116):
`this.res.statusMessage || statuses[this.status]`. -/
def getMessage (r : Response) : String :=
  if r.statusMessage ≠ "" then r.statusMessage else statusMessageOf r.statusCode

/-- The terminal `respond(ctx)` helper from `src/lib/application.js`
(lines 226–278): nothing happens when the bypass flag is exactly `false` or
the response is not writable; a body-forbidden status strips the body and ends
without payload; HEAD sets the JSON byte length when headers are unsent and
ends without payload; a missing body synthesizes a textual fallback (the code
for HTTP/2+, else the status message or the code) and ends with it; buffers
and strings are written directly, streams are piped, and anything else is
JSON-serialized (setting the length when headers are unsent). -/
def respond (c : Ctx) : Ctx × List Wire :=
  if c.respondFlag = some false then (c, [])
  else if respWritable c.response = false then (c, [])
  else
    let body := c.response.body
    let code := c.response.statusCode
    if statusEmpty code then
      match setBody c.response .null with
      | .ok r1 => ({ c with response := endRes r1 }, [.endEmpty])
      | .error _ =>
          -- unreachable: the status is already body-forbidden, so the body
          -- setter does not re-enter the asserting status setter
          ({ c with response := endRes c.response }, [.endEmpty])
    else if c.method = "HEAD" then
      let r1 := if ¬ c.response.headersSent && bodyIsJSON body then
                  setLength c.response (utf8Len (bodyJsonStringify body))
                else c.response
      ({ c with response := endRes r1 }, [.endEmpty])
    else match body with
    | .null =>
        let b := if c.response.httpVersionMajor ≥ 2 then toString code
                 else (let m := getMessage c.response
                       if m ≠ "" then m else toString code)
        let r1 := if ¬ c.response.headersSent then
                    setLength (setTypeS c.response "text") (utf8Len b)
                  else c.response
        ({ c with response := endRes r1 }, [.endStr b])
    | .buf b => ({ c with response := endRes c.response }, [.endBuf b])
    | .str s => ({ c with response := endRes c.response }, [.endStr s])
    | .stream sid => (c, [.pipe sid])
    | .json _ =>
        let s := bodyJsonStringify body
        let r1 := if ¬ c.response.headersSent then setLength c.response (utf8Len s)
                  else c.response
        ({ c with response := endRes r1 }, [.endStr s])

/-! ## Lemmas about the composition engine -/

/-- An index with a defined entry is within the list. -/
theorem lt_length_of_getElem?_some {α : Type} {l : List α} {i : Nat} {a : α}
    (h : l[i]? = some a) : i < l.length := by
  by_contra hc
  rw [List.getElem?_eq_none (by omega)] at h
  cases h

/-- Guard step of `dispatch`: a call with `i <= index` rejects at once with
the multiple-invocation error, leaving the cursor and trace untouched. -/
theorem dispatch_guard (mws : List Mw) (onext : Option Mw) (i : Nat) (index : Int)
    (h : (i : Int) ≤ index) :
    dispatch mws onext i index = (.error .multipleNext, index, []) := by
  rw [dispatch]
  simp [h]

/-- Terminal step of `dispatch` with no external `next`: at `i = length` the
pipeline resolves, recording `index = i`. -/
theorem dispatch_terminal (mws : List Mw) (i : Nat) (index : Int)
    (h1 : ¬ (i : Int) ≤ index) (h2 : i = mws.length) :
    dispatch mws none i index = (.ok (), (i : Int), []) := by
  subst h2
  rw [dispatch]
  simp [h1]

/-- Middleware step of `dispatch`: at a valid un-revisited slot the stored
middleware runs with `next` bound to `dispatch (i+1)` and the slot is recorded
in the trace. -/
theorem dispatch_step (mws : List Mw) (onext : Option Mw) (i : Nat) (index : Int) (m : Mw)
    (h1 : ¬ (i : Int) ≤ index) (h2 : mws[i]? = some m) (h3 : i < mws.length) :
    dispatch mws onext i index =
      ((runMw (fun idx => dispatch mws onext (i + 1) idx) m (i : Int)).1,
       (runMw (fun idx => dispatch mws onext (i + 1) idx) m (i : Int)).2.1,
       i :: (runMw (fun idx => dispatch mws onext (i + 1) idx) m (i : Int)).2.2) := by
  rw [dispatch]
  simp [h1, Nat.le_of_lt h3, Nat.ne_of_lt h3, h2, h3]

/-- Running a suffix of well-behaved `await next()` middleware resolves,
drives the cursor to the length of the stack, and invokes exactly the slots
`i, i+1, …, length-1` in order. -/
theorem dispatch_allOnce (mws : List Mw) :
    ∀ (n i : Nat), mws.length - i = n → i ≤ mws.length →
      (∀ j, i ≤ j → j < mws.length → mws[j]? = some mwOnce) →
      dispatch mws none i ((i : Int) - 1) =
        (.ok (), (mws.length : Int), List.range' i (mws.length - i)) := by
  intro n
  induction n with
  | zero =>
      intro i h0 hle _hall
      have hi : i = mws.length := by omega
      rw [dispatch_terminal mws i _ (by omega) hi]
      simp [hi, List.range']
  | succ n ih =>
      intro i h0 hle hall
      have hi : i < mws.length := by omega
      have hone : mws[i]? = some mwOnce := hall i le_rfl hi
      rw [dispatch_step mws none i _ mwOnce (by omega) hone hi]
      have hcast : ((i + 1 : Nat) : Int) - 1 = (i : Int) := by push_cast; ring
      have hrec : dispatch mws none (i + 1) ((i : Int)) =
          (.ok (), (mws.length : Int), List.range' (i + 1) (mws.length - (i + 1))) := by
        have h := ih (i + 1) (by omega) (by omega) (fun j hj hj2 => hall j (by omega) hj2)
        rwa [hcast] at h
      have hlen : mws.length - i = (mws.length - (i + 1)) + 1 := by omega
      simp [runMw, mwOnce, hrec, hlen, List.range'_succ]

/-- A prefix of well-behaved `await next()` middleware is transparent: the
pipeline's result from slot `i` is whatever slot `k` produces, with the
prefix slots prepended to the trace. -/
theorem dispatch_oncePrefix (mws : List Mw) (k : Nat)
    (hbefore : ∀ j, j < k → mws[j]? = some mwOnce) (hkL : k ≤ mws.length) :
    ∀ (n i : Nat), k - i = n → i ≤ k →
      dispatch mws none i ((i : Int) - 1) =
        ((dispatch mws none k ((k : Int) - 1)).1,
         (dispatch mws none k ((k : Int) - 1)).2.1,
         List.range' i (k - i) ++ (dispatch mws none k ((k : Int) - 1)).2.2) := by
  intro n
  induction n with
  | zero =>
      intro i h0 hle
      have hi : i = k := by omega
      subst hi
      simp [List.range']
  | succ n ih =>
      intro i h0 hle
      have hik : i < k := by omega
      have hiL : i < mws.length := by omega
      have hone : mws[i]? = some mwOnce := hbefore i hik
      rw [dispatch_step mws none i _ mwOnce (by omega) hone hiL]
      have hcast : ((i + 1 : Nat) : Int) - 1 = (i : Int) := by push_cast; ring
      have hrec : dispatch mws none (i + 1) ((i : Int)) =
          ((dispatch mws none k ((k : Int) - 1)).1,
           (dispatch mws none k ((k : Int) - 1)).2.1,
           List.range' (i + 1) (k - (i + 1)) ++ (dispatch mws none k ((k : Int) - 1)).2.2) := by
        have h := ih (i + 1) (by omega) (by omega)
        rwa [hcast] at h
      have hlen : k - i = (k - (i + 1)) + 1 := by omega
      cases hres : (dispatch mws none k ((k : Int) - 1)).1 with
      | ok u => simp [runMw, mwOnce, hrec, hres, hlen, List.range'_succ]
      | error e => simp [runMw, mwOnce, hrec, hres, hlen, List.range'_succ]

/-- Trace inclusion for one middleware run: every slot a middleware's run
invokes comes from some `next` call, hence from the bound dispatch
continuation. -/
theorem runMw_trace {S : Nat → Prop} (nd : Int → Outcome)
    (hnd : ∀ idx j, j ∈ (nd idx).2.2 → S j) :
    ∀ (m : Mw) (idx : Int) (j : Nat), j ∈ (runMw nd m idx).2.2 → S j := by
  intro m
  induction m with
  | ret => intro idx j hj; simp [runMw] at hj
  | throw e => intro idx j hj; simp [runMw] at hj
  | callNext k ih =>
      intro idx j hj
      simp only [runMw] at hj
      rcases List.mem_append.mp hj with h | h
      · exact hnd _ _ h
      · exact ih _ _ _ h

/-- When slot `k` holds an immediately-throwing middleware, no slot beyond `k`
is ever invoked: `dispatch (k+1)` is only reachable through slot `k`'s `next`,
which a throwing middleware never calls. -/
theorem dispatch_trace_le (mws : List Mw) (k : Nat) (e : Err)
    (hk : mws[k]? = some (.throw e)) :
    ∀ (n i : Nat) (idx : Int), k - i = n → i ≤ k →
      ∀ j, j ∈ (dispatch mws none i idx).2.2 → j ≤ k := by
  have hkL : k < mws.length := lt_length_of_getElem?_some hk
  intro n
  induction n with
  | zero =>
      intro i idx h0 hle j hj
      have hik : i = k := by omega
      subst hik
      by_cases hg : (i : Int) ≤ idx
      · rw [dispatch_guard mws none i idx hg] at hj
        simp at hj
      · rw [dispatch_step mws none i idx (.throw e) hg hk hkL] at hj
        simp [runMw] at hj
        omega
  | succ n ih =>
      intro i idx h0 hle j hj
      have hik : i < k := by omega
      by_cases hg : (i : Int) ≤ idx
      · rw [dispatch_guard mws none i idx hg] at hj
        simp at hj
      · have hiL : i < mws.length := by omega
        have hsome : mws[i]? = some (mws[i]) := List.getElem?_eq_getElem hiL
        rw [dispatch_step mws none i idx (mws[i]) hg hsome hiL] at hj
        rcases List.mem_cons.mp hj with rfl | hj
        · omega
        · exact runMw_trace _ (fun idx' j' hj' => ih (i + 1) idx' (by omega) (by omega) j' hj')
            _ _ _ hj

/-- Running a double-`next` middleware at slot `k`, with well-behaved
middleware after it, rejects with the multiple-invocation error: the first
`next` drives the cursor to the end of the stack, so the second `next` call
fails the `i <= index` guard and the rejection propagates back out. -/
theorem dispatch_twiceAt (mws : List Mw) (k : Nat)
    (hk : mws[k]? = some mwTwice)
    (hafter : ∀ j, k < j → j < mws.length → mws[j]? = some mwOnce) :
    dispatch mws none k ((k : Int) - 1) =
      (.error .multipleNext, (mws.length : Int),
       k :: List.range' (k + 1) (mws.length - (k + 1))) := by
  have hkL : k < mws.length := lt_length_of_getElem?_some hk
  rw [dispatch_step mws none k _ mwTwice (by omega) hk hkL]
  have hcast : ((k + 1 : Nat) : Int) - 1 = (k : Int) := by push_cast; ring
  have h1 : dispatch mws none (k + 1) ((k : Int)) =
      (.ok (), (mws.length : Int), List.range' (k + 1) (mws.length - (k + 1))) := by
    have h := dispatch_allOnce mws (mws.length - (k + 1)) (k + 1) rfl (by omega)
      (fun j hj hj2 => hafter j (by omega) hj2)
    rwa [hcast] at h
  have h2 : dispatch mws none (k + 1) ((mws.length : Int)) =
      (.error .multipleNext, (mws.length : Int), []) :=
    dispatch_guard _ _ _ _ (by omega)
  simp [runMw, mwTwice, mwOnce, h1, h2]

/-- Closed form of one `await next()`-and-propagate middleware run: the
outcome of the single `next` call is the middleware's own outcome. -/
theorem runMw_once (nd : Int → Outcome) (idx : Int) :
    runMw nd mwOnce idx = ((nd idx).1, (nd idx).2.1, (nd idx).2.2) := by
  cases h : (nd idx).1 with
  | ok u => cases u; simp [runMw, mwOnce, h]
  | error e => simp [runMw, mwOnce, h]

/-- Closed form of the catching middleware run: the `next` call's state
changes are kept but its outcome is swallowed. -/
theorem runMw_catch (nd : Int → Outcome) (idx : Int) :
    runMw nd mwCatch idx = (.ok (), (nd idx).2.1, (nd idx).2.2) := by
  simp [runMw, mwCatch]

/-- Closed form of the double-`next` middleware run: a failing first call
propagates; a successful first call is followed by a second call from the
updated cursor whose outcome propagates. -/
theorem runMw_twice (nd : Int → Outcome) (idx : Int) :
    runMw nd mwTwice idx =
      (match (nd idx).1 with
       | .error e => (.error e, (nd idx).2.1, (nd idx).2.2)
       | .ok _ =>
           ((nd (nd idx).2.1).1, (nd (nd idx).2.1).2.1,
            (nd idx).2.2 ++ (nd (nd idx).2.1).2.2)) := by
  cases h : (nd idx).1 with
  | ok u => cases u; simp [runMw, mwTwice, h, runMw_once]
  | error e => simp [runMw, mwTwice, h]

/-- C1: within one pipeline invocation, calling the dispatch continuation for
an index not strictly greater than the highest index already dispatched
returns a rejection carrying the "next() called multiple times" error — never
a silent success — and, when the surrounding middleware simply await and
propagate, a middleware that calls `next` twice makes the whole composed
pipeline's result that rejection. -/
theorem c1_double_next_rejects :
    (∀ (mws : List Mw) (onext : Option Mw) (i : Nat) (index : Int),
        (i : Int) ≤ index →
        dispatch mws onext i index = (.error .multipleNext, index, [])) ∧
    (∀ (mws : List Mw) (k : Nat),
        mws[k]? = some mwTwice →
        (∀ j, j < k → mws[j]? = some mwOnce) →
        (∀ j, k < j → j < mws.length → mws[j]? = some mwOnce) →
        (composeRun mws).1 = .error .multipleNext) := by
  constructor
  · exact fun mws onext i index h => dispatch_guard mws onext i index h
  · intro mws k hk hbefore hafter
    have hkL : k < mws.length := lt_length_of_getElem?_some hk
    have hmid := dispatch_twiceAt mws k hk hafter
    have hpre := dispatch_oncePrefix mws k hbefore (by omega) k 0 (by omega) (by omega)
    unfold composeRun
    rw [show (-1 : Int) = ((0 : Nat) : Int) - 1 by norm_num, hpre]
    simp [hmid]

/-- C1 fails as universally stated: an enclosing middleware that wraps
`await next()` in `try/catch` and swallows the rejection makes the pipeline
whose inner middleware called `next` twice resolve successfully. -/
theorem c1_counterexample :
    composeRun [mwCatch, mwTwice] = (.ok (), 2, [0, 1]) := by
  have d22 : dispatch [mwCatch, mwTwice] none 2 2 = (.error .multipleNext, 2, []) :=
    dispatch_guard _ _ _ _ (by norm_num)
  have d21 : dispatch [mwCatch, mwTwice] none 2 1 = (.ok (), 2, []) :=
    dispatch_terminal _ _ _ (by norm_num) rfl
  have d11 : dispatch [mwCatch, mwTwice] none 1 0 = (.error .multipleNext, 2, [1]) := by
    rw [dispatch_step [mwCatch, mwTwice] none 1 0 mwTwice (by norm_num) rfl (by norm_num),
      runMw_twice]
    simp [d21, d22]
  have d00 : dispatch [mwCatch, mwTwice] none 0 (-1) = (.ok (), 2, [0, 1]) := by
    rw [dispatch_step [mwCatch, mwTwice] none 0 (-1) mwCatch (by norm_num) rfl (by norm_num),
      runMw_catch]
    simp [d11]
  exact d00

/-- Witness for C1's amended theorem at concrete inputs: the guard fires on
a revisited index, and a one-element stack whose middleware calls `next`
twice rejects the whole pipeline. -/
theorem c1_witness :
    dispatch [] none 0 5 = (.error .multipleNext, 5, []) ∧
    (composeRun [mwTwice]).1 = .error .multipleNext := by
  constructor
  · exact c1_double_next_rejects.1 [] none 0 5 (by norm_num)
  · exact c1_double_next_rejects.2 [mwTwice] 0 rfl
      (fun j hj => absurd hj (Nat.not_lt_zero j))
      (fun j h1 h2 => by
        exfalso
        simp only [List.length_singleton] at h2
        omega)

/-- C2: a middleware that throws makes the pipeline reject with that exact
error when the middleware before it simply await and propagate; and,
unconditionally, no middleware at a later stack index is ever invoked in that
pipeline invocation. -/
theorem c2_throw_short_circuits :
    (∀ (mws : List Mw) (k : Nat) (e : Err),
        mws[k]? = some (.throw e) →
        (∀ j, j < k → mws[j]? = some mwOnce) →
        (composeRun mws).1 = .error e) ∧
    (∀ (mws : List Mw) (k : Nat) (e : Err),
        mws[k]? = some (.throw e) →
        ∀ j, j ∈ (composeRun mws).2.2 → j ≤ k) := by
  constructor
  · intro mws k e hk hbefore
    have hkL : k < mws.length := lt_length_of_getElem?_some hk
    have hmid : dispatch mws none k ((k : Int) - 1) = (.error e, (k : Int), [k]) := by
      rw [dispatch_step mws none k _ (.throw e) (by omega) hk hkL]
      simp [runMw]
    have hpre := dispatch_oncePrefix mws k hbefore (by omega) k 0 (by omega) (by omega)
    unfold composeRun
    rw [show (-1 : Int) = ((0 : Nat) : Int) - 1 by norm_num, hpre]
    simp [hmid]
  · intro mws k e hk j hj
    exact dispatch_trace_le mws k e hk k 0 (-1) (by omega) (by omega) j hj

/-- C2 fails as universally stated: an earlier middleware that catches the
awaited rejection turns the thrower's error into overall success, so the
pipeline does not reject with that error (the thrower still short-circuits:
no later slot runs). -/
theorem c2_counterexample :
    composeRun [mwCatch, Mw.throw (Err.user 7)] = (.ok (), 1, [0, 1]) := by
  have d11 : dispatch [mwCatch, Mw.throw (Err.user 7)] none 1 0 =
      (.error (.user 7), 1, [1]) := by
    rw [dispatch_step _ none 1 0 (Mw.throw (Err.user 7)) (by norm_num) rfl (by norm_num)]
    simp [runMw]
  have d00 : dispatch [mwCatch, Mw.throw (Err.user 7)] none 0 (-1) = (.ok (), 1, [0, 1]) := by
    rw [dispatch_step _ none 0 (-1) mwCatch (by norm_num) rfl (by norm_num), runMw_catch]
    simp [d11]
  exact d00

/-- Witness for C2's amended theorem: a propagating middleware followed by a
thrower rejects the pipeline with the thrown error, and the thrower's own
slot (which is in the trace) is within the allowed bound. -/
theorem c2_witness :
    (composeRun [mwOnce, Mw.throw (Err.user 3)]).1 = .error (.user 3) ∧ (1 : Nat) ≤ 1 := by
  have hk : [mwOnce, Mw.throw (Err.user 3)][1]? = some (Mw.throw (Err.user 3)) := rfl
  constructor
  · exact c2_throw_short_circuits.1 [mwOnce, Mw.throw (Err.user 3)] 1 (.user 3) hk
      (fun j hj => by
        have hj0 : j = 0 := by omega
        subst hj0
        rfl)
  · refine c2_throw_short_circuits.2 [mwOnce, Mw.throw (Err.user 3)] 1 (.user 3) hk 1 ?_
    have d11 : dispatch [mwOnce, Mw.throw (Err.user 3)] none 1 0 =
        (.error (.user 3), 1, [1]) := by
      rw [dispatch_step _ none 1 0 (Mw.throw (Err.user 3)) (by norm_num) rfl (by norm_num)]
      simp [runMw]
    have d00 : dispatch [mwOnce, Mw.throw (Err.user 3)] none 0 (-1) =
        (.error (.user 3), 1, [0, 1]) := by
      rw [dispatch_step _ none 0 (-1) mwOnce (by norm_num) rfl (by norm_num), runMw_once]
      simp [d11]
    show (1 : Nat) ∈ (composeRun [mwOnce, Mw.throw (Err.user 3)]).2.2
    rw [show composeRun [mwOnce, Mw.throw (Err.user 3)] =
        dispatch [mwOnce, Mw.throw (Err.user 3)] none 0 (-1) from rfl, d00]
    simp

/-- An element that is not a function makes the validation loop throw the
functions-only `TypeError`. -/
theorem extractFns_err : ∀ (l : List JsVal) (m : JsVal), m ∈ l → (∀ f, m ≠ .vfn f) →
    extractFns l = .error .notFunction := by
  intro l
  induction l with
  | nil => intro m hm _; cases hm
  | cons a rest ih =>
      intro m hm hnf
      rcases List.mem_cons.mp hm with rfl | hm'
      · cases m with
        | vfn f => exact absurd rfl (hnf f)
        | vnum n => rfl
        | vstr s => rfl
        | vbool b => rfl
        | vnull => rfl
        | vundef => rfl
        | varr l2 => rfl
        | vobj => rfl
      · cases a with
        | vfn f => simp [extractFns, ih m hm' hnf, Except.map]
        | vnum n => rfl
        | vstr s => rfl
        | vbool b => rfl
        | vnull => rfl
        | vundef => rfl
        | varr l2 => rfl
        | vobj => rfl

/-- C3: `compose` raises its `TypeError`s at construction time — before any
pipeline invocation, since the error is the value of the constructor call
itself — whenever the argument is not an array, or whenever any element of
the array is not a function. -/
theorem c3_compose_validation (v : JsVal) :
    ((∀ l, v ≠ JsVal.varr l) → compose v = .error .notArray) ∧
    (∀ l m, v = JsVal.varr l → m ∈ l → (∀ f, m ≠ JsVal.vfn f) →
      compose v = .error .notFunction) := by
  constructor
  · intro hna
    cases v with
    | varr l => exact absurd rfl (hna l)
    | vfn m => rfl
    | vnum n => rfl
    | vstr s => rfl
    | vbool b => rfl
    | vnull => rfl
    | vundef => rfl
    | vobj => rfl
  · intro l m hv hm hnf
    subst hv
    exact extractFns_err l m hm hnf

/-- Witness for C3 at concrete inputs: a number is not an array, and an array
holding a number is rejected for its non-function element. -/
theorem c3_witness :
    compose (.vnum 0) = .error .notArray ∧
    compose (.varr [.vnum 0]) = .error .notFunction := by
  constructor
  · exact (c3_compose_validation (.vnum 0)).1 (fun l h => JsVal.noConfusion h)
  · exact (c3_compose_validation (.varr [.vnum 0])).2 [.vnum 0] (.vnum 0) rfl
      (List.mem_singleton.mpr rfl) (fun f h => JsVal.noConfusion h)

/-! ## Lemmas about the header store and the response facade -/

/-- Writing a key and reading it back yields the written value. -/
theorem getHd_putH_self (hs : List (String × String)) (f v : String) :
    getHd (putH hs f v) f = some v := by
  induction hs with
  | nil => simp [putH, getHd, List.find?]
  | cons p rest ih =>
      rcases p with ⟨k, w⟩
      by_cases h : k = f
      · subst h; simp [putH, getHd, List.find?]
      · simpa [putH, getHd, List.find?, h] using ih

/-- Writing one key leaves reads of a different key unchanged. -/
theorem getHd_putH_ne (hs : List (String × String)) {f g : String} (h : g ≠ f) (v : String) :
    getHd (putH hs f v) g = getHd hs g := by
  induction hs with
  | nil => simp [putH, getHd, List.find?, Ne.symm h]
  | cons p rest ih =>
      rcases p with ⟨k, w⟩
      by_cases hk : k = f
      · subst hk; simp [putH, getHd, List.find?, Ne.symm h]
      · by_cases hg : k = g
        · subst hg; simp [putH, getHd, List.find?, hk]
        · simpa [putH, getHd, List.find?, hk, hg] using ih

/-- Deleting a key makes reads of it come back empty. -/
theorem getHd_delH_self (hs : List (String × String)) (f : String) :
    getHd (delH hs f) f = none := by
  induction hs with
  | nil => simp [delH, getHd, List.find?]
  | cons p rest ih =>
      rcases p with ⟨k, w⟩
      by_cases h : k = f
      · subst h; simpa [delH] using ih
      · simpa [delH, getHd, List.find?, h] using ih

/-- Deleting one key leaves reads of a different key unchanged. -/
theorem getHd_delH_ne (hs : List (String × String)) {f g : String} (h : g ≠ f) :
    getHd (delH hs f) g = getHd hs g := by
  induction hs with
  | nil => simp [delH]
  | cons p rest ih =>
      rcases p with ⟨k, w⟩
      by_cases hk : k = f
      · subst hk; simpa [delH, getHd, List.find?, Ne.symm h] using ih
      · by_cases hg : k = g
        · subst hg; simp [delH, getHd, List.find?, hk]
        · simpa [delH, getHd, List.find?, hk, hg] using ih

/-- The `set` mutator does not touch the status code. -/
theorem setH_statusCode (r : Response) (f v : String) :
    (setH r f v).statusCode = r.statusCode := by
  unfold setH; split <;> rfl

/-- The `set` mutator does not touch the body. -/
theorem setH_body (r : Response) (f v : String) : (setH r f v).body = r.body := by
  unfold setH; split <;> rfl

/-- The `set` mutator does not touch the explicit-status flag. -/
theorem setH_explicitStatus (r : Response) (f v : String) :
    (setH r f v).explicitStatus = r.explicitStatus := by
  unfold setH; split <;> rfl

/-- The `set` mutator does not change whether headers are sent. -/
theorem setH_headersSent (r : Response) (f v : String) :
    (setH r f v).headersSent = r.headersSent := by
  unfold setH; split <;> rfl

/-- The `remove` mutator does not touch the status code. -/
theorem removeH_statusCode (r : Response) (f : String) :
    (removeH r f).statusCode = r.statusCode := by
  unfold removeH; split <;> rfl

/-- The `remove` mutator does not touch the body. -/
theorem removeH_body (r : Response) (f : String) : (removeH r f).body = r.body := by
  unfold removeH; split <;> rfl

/-- The `remove` mutator does not touch the explicit-status flag. -/
theorem removeH_explicitStatus (r : Response) (f : String) :
    (removeH r f).explicitStatus = r.explicitStatus := by
  unfold removeH; split <;> rfl

/-- The `remove` mutator does not change whether headers are sent. -/
theorem removeH_headersSent (r : Response) (f : String) :
    (removeH r f).headersSent = r.headersSent := by
  unfold removeH; split <;> rfl

/-- Reading back a header just set (same normalized key) yields the value. -/
theorem getH_setH_self (r : Response) (f g v : String) (hs : r.headersSent = false)
    (h : lowerS g = lowerS f) : getH (setH r f v) g = some v := by
  simp [getH, setH, hs, h, getHd_putH_self]

/-- Setting one header leaves reads of another (different normalized key)
unchanged. -/
theorem getH_setH_ne (r : Response) (f g v : String) (h : lowerS g ≠ lowerS f) :
    getH (setH r f v) g = getH r g := by
  by_cases hs : r.headersSent <;> simp [getH, setH, hs, getHd_putH_ne _ h]

/-- Reading back a header just removed (same normalized key) yields nothing. -/
theorem getH_removeH_self (r : Response) (f g : String) (hs : r.headersSent = false)
    (h : lowerS g = lowerS f) : getH (removeH r f) g = none := by
  simp [getH, removeH, hs, h, getHd_delH_self]

/-- Removing one header leaves reads of another (different normalized key)
unchanged. -/
theorem getH_removeH_ne (r : Response) (f g : String) (h : lowerS g ≠ lowerS f) :
    getH (removeH r f) g = getH r g := by
  by_cases hs : r.headersSent <;> simp [getH, removeH, hs, getHd_delH_ne _ h]

/-- Normalization of the header names this development manipulates. -/
theorem lowerS_ct : lowerS "Content-Type" = "content-type" := by decide

/-- Lowercase content-type is already normalized. -/
theorem lowerS_ctl : lowerS "content-type" = "content-type" := by decide

/-- Normalization of Content-Length. -/
theorem lowerS_cl : lowerS "Content-Length" = "content-length" := by decide

/-- Lowercase content-length is already normalized. -/
theorem lowerS_cll : lowerS "content-length" = "content-length" := by decide

/-- Normalization of Transfer-Encoding. -/
theorem lowerS_te : lowerS "Transfer-Encoding" = "transfer-encoding" := by decide

/-- Lowercase transfer-encoding is already normalized. -/
theorem lowerS_tel : lowerS "transfer-encoding" = "transfer-encoding" := by decide

/-- Normalization of Location. -/
theorem lowerS_loc : lowerS "Location" = "location" := by decide

/-- Lowercase location is already normalized. -/
theorem lowerS_locl : lowerS "location" = "location" := by decide

/-- 200 is not a body-forbidden status. -/
theorem statusEmpty_200 : statusEmpty 200 = false := by decide

/-- 204 is a body-forbidden status. -/
theorem statusEmpty_204 : statusEmpty 204 = true := by decide

/-- 302 is not a body-forbidden status. -/
theorem statusEmpty_302 : statusEmpty 302 = false := by decide

/-- 302 is a redirect status. -/
theorem statusRedirect_302 : statusRedirect 302 = true := by decide

/-- C4 fails as stated, in both directions it quantifies over. Setting the
body-forbidden status first and a body afterwards leaves the body in place
(the body setter only strips on `null` assignments, and the status setter has
already run); and a falsy body such as the empty string is non-null yet
survives a subsequent body-forbidden status because the setter's guard is
JavaScript truthiness (`this.body && …`), leaving its content-type and length
headers behind as well. -/
theorem c4_counterexample :
    Except.map Response.body (applyStatusThenBody fresh0 204 (Body.str "x")) =
      .ok (Body.str "x") ∧
    Except.map (fun r => (r.body, getH r "content-type"))
        (applyBodyThenStatus fresh0 (Body.str "") 204) =
      .ok (Body.str "", some "text/plain; charset=utf-8") := by
  constructor
  · simp [applyStatusThenBody, setStatus, setBody, fresh0, statusEmpty, bodyTruthy,
      statusMessageOf, headerFalsy, getH, getHd, setTypeS, setLength, setH, removeH,
      getType, leadingLt, leadingLtAux, utf8Len, putH, delH, List.find?,
      lowerS_ct, lowerS_ctl, lowerS_cl, lowerS_cll, lowerS_te, lowerS_tel, Except.map]
  · simp [applyBodyThenStatus, setStatus, setBody, fresh0, statusEmpty, bodyTruthy,
      statusMessageOf, headerFalsy, getH, getHd, setTypeS, setLength, setH, removeH,
      getType, leadingLt, leadingLtAux, utf8Len, putH, delH, List.find?,
      lowerS_ct, lowerS_ctl, lowerS_cl, lowerS_cll, lowerS_te, lowerS_tel, Except.map]

/-- C4 (amended): on a fresh response facade, assigning any JS-truthy body and
then a body-forbidden status (204/205/304) — body first, status second —
leaves a null body and no Content-Type, Content-Length or Transfer-Encoding
header. -/
theorem c4_empty_status_nulls_body (v : Body) (hv : bodyTruthy v = true)
    (c : Int) (hc : statusEmpty c = true) :
    Except.map (fun r => (r.body, getH r "content-type", getH r "content-length",
        getH r "transfer-encoding"))
      (applyBodyThenStatus fresh0 v c) = .ok (Body.null, none, none, none) := by
  have hc' : c = 204 ∨ c = 205 ∨ c = 304 := by
    have h := hc
    simp [statusEmpty] at h
    tauto
  cases v with
  | null => simp [bodyTruthy] at hv
  | str s =>
      rcases hc' with rfl | rfl | rfl <;> by_cases hl : leadingLt s <;>
        simp [applyBodyThenStatus, setStatus, setBody, fresh0, statusEmpty,
          statusMessageOf, headerFalsy, getH, getHd, setTypeS, setLength, setH, removeH,
          getType, utf8Len, putH, delH, List.find?, hv, hl,
          lowerS_ct, lowerS_ctl, lowerS_cl, lowerS_cll, lowerS_te, lowerS_tel, Except.map]
  | buf b =>
      rcases hc' with rfl | rfl | rfl <;>
        simp [applyBodyThenStatus, setStatus, setBody, fresh0, statusEmpty,
          statusMessageOf, headerFalsy, getH, getHd, setTypeS, setLength, setH, removeH,
          getType, putH, delH, List.find?, hv,
          lowerS_ct, lowerS_ctl, lowerS_cl, lowerS_cll, lowerS_te, lowerS_tel, Except.map]
  | stream sid =>
      rcases hc' with rfl | rfl | rfl <;>
        simp [applyBodyThenStatus, setStatus, setBody, fresh0, statusEmpty,
          statusMessageOf, headerFalsy, getH, getHd, setTypeS, setLength, setH, removeH,
          getType, putH, delH, List.find?, hv,
          lowerS_ct, lowerS_ctl, lowerS_cl, lowerS_cll, lowerS_te, lowerS_tel, Except.map]
  | json j =>
      rcases hc' with rfl | rfl | rfl <;>
        simp [applyBodyThenStatus, setStatus, setBody, fresh0, statusEmpty,
          statusMessageOf, headerFalsy, getH, getHd, setTypeS, setLength, setH, removeH,
          getType, putH, delH, List.find?, hv,
          lowerS_ct, lowerS_ctl, lowerS_cl, lowerS_cll, lowerS_te, lowerS_tel, Except.map]

/-- Witness for C4's amended theorem at a concrete truthy body and status. -/
theorem c4_witness :
    Except.map (fun r => (r.body, getH r "content-type", getH r "content-length",
        getH r "transfer-encoding"))
      (applyBodyThenStatus fresh0 (Body.str "hi") 204) = .ok (Body.null, none, none, none) :=
  c4_empty_status_nulls_body (Body.str "hi") (by decide) 204 (by decide)

/-- The `type` setter does not touch the status code. -/
theorem setTypeS_statusCode (r : Response) (t : String) :
    (setTypeS r t).statusCode = r.statusCode := by
  unfold setTypeS; cases getType t <;> simp [setH_statusCode, removeH_statusCode]

/-- The `type` setter does not touch the body. -/
theorem setTypeS_body (r : Response) (t : String) : (setTypeS r t).body = r.body := by
  unfold setTypeS; cases getType t <;> simp [setH_body, removeH_body]

/-- The `type` setter does not touch the explicit-status flag. -/
theorem setTypeS_explicitStatus (r : Response) (t : String) :
    (setTypeS r t).explicitStatus = r.explicitStatus := by
  unfold setTypeS; cases getType t <;> simp [setH_explicitStatus, removeH_explicitStatus]

/-- The `type` setter does not change whether headers are sent. -/
theorem setTypeS_headersSent (r : Response) (t : String) :
    (setTypeS r t).headersSent = r.headersSent := by
  unfold setTypeS; cases getType t <;> simp [setH_headersSent, removeH_headersSent]

/-- The `length` setter does not touch the status code. -/
theorem setLength_statusCode (r : Response) (n : Nat) :
    (setLength r n).statusCode = r.statusCode := setH_statusCode _ _ _

/-- The `length` setter does not touch the body. -/
theorem setLength_body (r : Response) (n : Nat) : (setLength r n).body = r.body :=
  setH_body _ _ _

/-- The `length` setter does not touch the explicit-status flag. -/
theorem setLength_explicitStatus (r : Response) (n : Nat) :
    (setLength r n).explicitStatus = r.explicitStatus := setH_explicitStatus _ _ _

/-- The `length` setter does not change whether headers are sent. -/
theorem setLength_headersSent (r : Response) (n : Nat) :
    (setLength r n).headersSent = r.headersSent := setH_headersSent _ _ _

/-- C5 fails as universally stated: once headers have been sent the status
setter is a no-op, so a facade whose status was never explicitly set keeps its
default 404 after a non-null body assignment (the body itself is still
stored). -/
theorem c5_counterexample :
    Response.explicitStatus { fresh0 with headersSent := true } = false ∧
    Except.map Response.statusCode
        (setBody { fresh0 with headersSent := true } (Body.str "x")) = .ok 404 := by
  constructor
  · rfl
  · simp [setBody, setStatus, fresh0, statusEmpty, headerFalsy, getH, getHd,
      setTypeS, setLength, setH, removeH, getType, leadingLt, leadingLtAux, utf8Len,
      putH, delH, List.find?, lowerS_ctl, Except.map]

/-- C5 (amended): provided headers have not been sent, assigning a non-null
body sets the status to 200 exactly when no explicit status was ever set, and
leaves the status untouched when one was. -/
theorem c5_body_promotes_status (r : Response) (v : Body)
    (hs : r.headersSent = false) (hv : v ≠ Body.null) :
    Except.map Response.statusCode (setBody r v) =
      .ok (if r.explicitStatus then r.statusCode else 200) := by
  cases v with
  | null => exact absurd rfl hv
  | str s =>
      by_cases he : r.explicitStatus <;>
        simp [setBody, setStatus, hs, he, statusEmpty, Except.map] <;>
          split_ifs <;>
            simp [setTypeS_statusCode, setLength_statusCode, removeH_statusCode]
  | buf b =>
      by_cases he : r.explicitStatus <;>
        simp [setBody, setStatus, hs, he, statusEmpty, Except.map] <;>
          split_ifs <;>
            simp [setTypeS_statusCode, setLength_statusCode, removeH_statusCode]
  | stream sid =>
      by_cases he : r.explicitStatus <;>
        simp [setBody, setStatus, hs, he, statusEmpty, Except.map] <;>
          split_ifs <;>
            simp [setTypeS_statusCode, setLength_statusCode, removeH_statusCode]
  | json j =>
      by_cases he : r.explicitStatus <;>
        simp [setBody, setStatus, hs, he, statusEmpty, Except.map,
          setTypeS_statusCode, removeH_statusCode]

/-- Witness for C5's amended theorem: a buffer body on the fresh facade
promotes the default 404 to 200. -/
theorem c5_witness :
    Except.map Response.statusCode (setBody fresh0 (Body.buf [1])) = .ok 200 := by
  have h := c5_body_promotes_status fresh0 (Body.buf [1]) rfl (by decide)
  simpa [fresh0] using h

/-- C6 fails as stated at two concrete inputs. The body sniff is the regular
expression `/^\s*</`, so a string whose `<` follows leading whitespace — which
does not have a leading `<` — still resolves to the html content type; and a
content-type header that was already set, but to the empty string, is falsy
and gets overwritten rather than left unchanged. -/
theorem c6_counterexample :
    Except.map (fun x => getH x "content-type") (setBody fresh0 (Body.str " <p>")) =
      .ok (some "text/html; charset=utf-8") ∧
    Except.map (fun x => getH x "content-type")
        (setBody { fresh0 with headers := [("content-type", "")] } (Body.str "x")) =
      .ok (some "text/plain; charset=utf-8") := by
  constructor
  · simp [setBody, setStatus, fresh0, statusEmpty, headerFalsy, getH, getHd,
      setTypeS, setLength, setH, removeH, getType, leadingLt, leadingLtAux,
      isJsWhitespace, utf8Len, putH, delH, List.find?,
      lowerS_ct, lowerS_ctl, lowerS_cl, lowerS_cll, Except.map]
  · simp [setBody, setStatus, fresh0, statusEmpty, headerFalsy, getH, getHd,
      setTypeS, setLength, setH, removeH, getType, leadingLt, leadingLtAux,
      isJsWhitespace, utf8Len, putH, delH, List.find?,
      lowerS_ct, lowerS_ctl, lowerS_cl, lowerS_cll, Except.map]

/-- C6 (amended): provided headers have not been sent, assigning a string body
when the content-type header is absent or empty sets the content type to the
html type exactly when the string's first non-whitespace character is `<`
(text/plain otherwise), and a non-empty content-type already set is left
unchanged. -/
theorem c6_string_body_content_type (r : Response) (s : String)
    (hs : r.headersSent = false) :
    Except.map (fun x => getH x "content-type") (setBody r (Body.str s)) =
      .ok (if headerFalsy r "content-type" then
             some (if leadingLt s then "text/html; charset=utf-8"
                   else "text/plain; charset=utf-8")
           else getH r "content-type") := by
  rcases hopt : getHd r.headers "content-type" with _ | v
  · by_cases he : r.explicitStatus <;> by_cases hl : leadingLt s <;>
      simp [setBody, setStatus, hs, he, hl, statusEmpty, headerFalsy, getH,
        setTypeS, setLength, setH, getType, hopt,
        getHd_putH_self, getHd_putH_ne,
        lowerS_ct, lowerS_ctl, lowerS_cl, lowerS_cll, Except.map]
  · by_cases hv : v = ""
    · subst hv
      by_cases he : r.explicitStatus <;> by_cases hl : leadingLt s <;>
        simp [setBody, setStatus, hs, he, hl, statusEmpty, headerFalsy, getH,
          setTypeS, setLength, setH, getType, hopt,
          getHd_putH_self, getHd_putH_ne,
          lowerS_ct, lowerS_ctl, lowerS_cl, lowerS_cll, Except.map]
    · by_cases he : r.explicitStatus <;>
        simp [setBody, setStatus, hs, he, hv, statusEmpty, headerFalsy, getH,
          setTypeS, setLength, setH, getType, hopt,
          getHd_putH_self, getHd_putH_ne,
          lowerS_ct, lowerS_ctl, lowerS_cl, lowerS_cll, Except.map]

/-- Witness for C6's amended theorem: a plain string on the fresh facade gets
the text/plain content type. -/
theorem c6_witness :
    Except.map (fun x => getH x "content-type") (setBody fresh0 (Body.str "hello")) =
      .ok (some "text/plain; charset=utf-8") := by
  have h := c6_string_body_content_type fresh0 "hello" rfl
  simpa [fresh0, headerFalsy, getH, getHd, lowerS_ctl, leadingLt, leadingLtAux,
    isJsWhitespace, List.find?] using h

/-- C7 fails as universally stated: once headers have been sent, both the
header removals and the forced 204 are no-ops, so a null-body assignment on a
sent response keeps its status and its body-related headers (only the stored
body changes). -/
theorem c7_counterexample :
    Except.map (fun x => (x.statusCode, getH x "content-type"))
        (setBody { fresh0 with headersSent := true, statusCode := 200, headers := [("content-type", "text/html")] } Body.null) =
      .ok (200, some "text/html") := by
  simp [setBody, setStatus, fresh0, statusEmpty, getH, getHd, removeH, delH,
    List.find?, lowerS_ctl, Except.map]

/-- C7 (amended): provided headers have not been sent, assigning a null body
nulls the stored body, removes the Content-Type, Content-Length and
Transfer-Encoding headers, and forces the status to 204 exactly when the
current status is not already a body-forbidden code. -/
theorem c7_null_body_clears (r : Response) (hs : r.headersSent = false) :
    Except.map (fun x => (x.body, x.statusCode, getH x "content-type",
        getH x "content-length", getH x "transfer-encoding"))
      (setBody r Body.null) =
      .ok (Body.null, (if statusEmpty r.statusCode then r.statusCode else 204),
           none, none, none) := by
  by_cases hse : statusEmpty r.statusCode <;>
    simp [setBody, setStatus, hs, hse, bodyTruthy, statusEmpty_204, getH, removeH,
      getHd_delH_self, getHd_delH_ne,
      lowerS_ct, lowerS_ctl, lowerS_cl, lowerS_cll, lowerS_te, lowerS_tel, Except.map]

/-- Witness for C7's amended theorem on the fresh facade: the default 404 is
not body-forbidden, so a null-body assignment forces 204 and leaves no
body-related headers. -/
theorem c7_witness :
    Except.map (fun x => (x.body, x.statusCode, getH x "content-type",
        getH x "content-length", getH x "transfer-encoding"))
      (setBody fresh0 Body.null) = .ok (Body.null, 204, none, none, none) := by
  have h := c7_null_body_clears fresh0 rfl
  simpa [fresh0, statusEmpty] using h

/-- Escaping a URL with no HTML-significant characters is the identity. -/
theorem escapeHtml_httpx : escapeHtml "http://x" = "http://x" := by decide

/-- The html redirect notice built for `http://x` collapses to its literal. -/
theorem redirect_body_httpx :
    "Redirecting to <a href=\x22" ++ "http://x" ++ "\x22>" ++ "http://x" ++ "</a>." =
      "Redirecting to <a href=\x22http://x\x22>http://x</a>." := by decide

/-- C9: on a response whose headers are unsent (and whose status, when already
a redirect code, was set through the facade), `redirect("back")` with Referrer
`http://x` and an html-accepting client sets the Location header to
`http://x`, forces 302 exactly when the current status is not already a
redirect code, and stores the escaped html redirect notice as the body; with
no Referrer the location falls back to a truthy `alt`, else to `/`. -/
theorem c9_redirect_back (r : Response) (alt : Option String)
    (hs : r.headersSent = false)
    (hexp : statusRedirect r.statusCode = true → r.explicitStatus = true) :
    (Except.map (fun x => (getH x "location", x.statusCode, x.body))
        (redirect r "http://x" true "back" alt) =
      .ok (some "http://x",
           (if statusRedirect r.statusCode then r.statusCode else 302),
           Body.str "Redirecting to <a href=\x22http://x\x22>http://x</a>.")) ∧
    (∀ a : String, a ≠ "" →
      Except.map (fun x => getH x "location") (redirect r "" true "back" (some a)) =
        .ok (some a)) ∧
    (Except.map (fun x => getH x "location") (redirect r "" true "back" none) =
      .ok (some "/")) := by
  refine ⟨?_, ?_, ?_⟩
  · by_cases hr : statusRedirect r.statusCode
    · have he := hexp hr
      simp [redirect, escapeHtml_httpx, redirect_body_httpx, setH, setTypeS, setLength,
        getType, setBody, setStatus, getH, headerFalsy, hs, he, hr,
        getHd_putH_self, getHd_putH_ne, statusEmpty_302, bodyTruthy,
        lowerS_ct, lowerS_ctl, lowerS_cl, lowerS_cll, lowerS_loc, lowerS_locl, Except.map]
    · simp [redirect, escapeHtml_httpx, redirect_body_httpx, setH, setTypeS, setLength,
        getType, setBody, setStatus, getH, headerFalsy, hs, hr,
        getHd_putH_self, getHd_putH_ne, statusEmpty_302, bodyTruthy,
        lowerS_ct, lowerS_ctl, lowerS_cl, lowerS_cll, lowerS_loc, lowerS_locl, Except.map]
  · intro a ha
    by_cases hr : statusRedirect r.statusCode
    · have he := hexp hr
      simp [redirect, setH, setTypeS, setLength, getType, setBody, setStatus, getH,
        headerFalsy, hs, he, hr, ha,
        getHd_putH_self, getHd_putH_ne, statusEmpty_302, bodyTruthy,
        lowerS_ct, lowerS_ctl, lowerS_cl, lowerS_cll, lowerS_loc, lowerS_locl, Except.map]
    · simp [redirect, setH, setTypeS, setLength, getType, setBody, setStatus, getH,
        headerFalsy, hs, hr, ha,
        getHd_putH_self, getHd_putH_ne, statusEmpty_302, bodyTruthy,
        lowerS_ct, lowerS_ctl, lowerS_cl, lowerS_cll, lowerS_loc, lowerS_locl, Except.map]
  · by_cases hr : statusRedirect r.statusCode
    · have he := hexp hr
      simp [redirect, setH, setTypeS, setLength, getType, setBody, setStatus, getH,
        headerFalsy, hs, he, hr,
        getHd_putH_self, getHd_putH_ne, statusEmpty_302, bodyTruthy,
        lowerS_ct, lowerS_ctl, lowerS_cl, lowerS_cll, lowerS_loc, lowerS_locl, Except.map]
    · simp [redirect, setH, setTypeS, setLength, getType, setBody, setStatus, getH,
        headerFalsy, hs, hr,
        getHd_putH_self, getHd_putH_ne, statusEmpty_302, bodyTruthy,
        lowerS_ct, lowerS_ctl, lowerS_cl, lowerS_cll, lowerS_loc, lowerS_locl, Except.map]

/-- Witness for C9 on the fresh facade (status 404 is not a redirect code, so
302 is forced; the alternate location is used when no Referrer is present,
else the root path). -/
theorem c9_witness :
    (Except.map (fun x => (getH x "location", x.statusCode, x.body))
        (redirect fresh0 "http://x" true "back" (some "/alt")) =
      .ok (some "http://x", 302,
           Body.str "Redirecting to <a href=\x22http://x\x22>http://x</a>.")) ∧
    Except.map (fun x => getH x "location")
        (redirect fresh0 "" true "back" (some "/alt")) = .ok (some "/alt") ∧
    Except.map (fun x => getH x "location")
        (redirect fresh0 "" true "back" none) = .ok (some "/") := by
  have h := c9_redirect_back fresh0 (some "/alt") rfl (by decide)
  exact ⟨by simpa [fresh0, statusRedirect] using h.1,
         h.2.1 "/alt" (by decide), h.2.2⟩

/-- C10: the terminal respond step does nothing — returns the context
unchanged and writes nothing to the transport — when the bypass flag is set to
`false` or when the response is not writable (in particular when it has
already finished). -/
theorem c10_respond_bypass_noop (c : Ctx)
    (h : c.respondFlag = some false ∨ respWritable c.response = false) :
    respond c = (c, []) := by
  rcases h with h | h
  · simp [respond, h]
  · simp [respond, h]

/-- Witness for C10: a context with the bypass flag set, and one whose
response has finished, both pass through respond untouched. -/
theorem c10_witness :
    respond { respondFlag := some false, response := fresh0, method := "GET" } =
      ({ respondFlag := some false, response := fresh0, method := "GET" }, []) ∧
    respond { respondFlag := none, response := { fresh0 with finished := true }, method := "GET" } =
      ({ respondFlag := none, response := { fresh0 with finished := true }, method := "GET" }, []) := by
  constructor
  · exact c10_respond_bypass_noop _ (Or.inl rfl)
  · exact c10_respond_bypass_noop _ (Or.inr (by decide))

/-! ## Lemmas about the request url operations -/

/-- Two strings with the same character data are equal. -/
theorem str_ext {a b : String} (h : a.data = b.data) : a = b := by
  cases a; cases b; exact congrArg String.mk h

/-- Appending concatenates character data. -/
theorem data_append (a b : String) : (a ++ b).data = a.data ++ b.data := rfl

/-- Rebuilding a string from its own data is the identity. -/
theorem mk_data (s : String) : String.mk s.data = s := rfl

/-- A string is empty exactly when its data is. -/
theorem data_eq_nil {s : String} : s.data = [] ↔ s = "" := by
  constructor
  · intro h; exact str_ext (by simpa using h)
  · intro h; subst h; rfl

/-- Appending the empty string is the identity. -/
theorem append_empty_str (a : String) : a ++ "" = a :=
  str_ext (by simp [data_append])

/-- With no `?` present, the split keeps the whole list as the pathname part. -/
theorem splitQ_not_mem {l : List Char} (h : '?' ∉ l) : splitQ l = (l, []) := by
  induction l with
  | nil => rfl
  | cons c cs ih =>
      have hc : c ≠ '?' := fun hh => h (hh ▸ List.mem_cons_self c cs)
      have hcs : '?' ∉ cs := fun hh => h (List.mem_cons_of_mem c hh)
      simp [splitQ, hc, ih hcs]

/-- Splitting a `?`-free prefix followed by a part that starts with `?`
recovers exactly the two parts. -/
theorem splitQ_append {a b : List Char} (ha : '?' ∉ a) (hb : b.head? = some '?') :
    splitQ (a ++ b) = (a, b) := by
  induction a with
  | nil =>
      cases b with
      | nil => cases hb
      | cons c cs =>
          have hc : c = '?' := by simpa using hb
          subst hc
          simp [splitQ]
  | cons c cs ih =>
      have hc : c ≠ '?' := fun hh => ha (hh ▸ List.mem_cons_self c cs)
      have hcs : '?' ∉ cs := fun hh => ha (List.mem_cons_of_mem c hh)
      simp [splitQ, hc, ih hcs]

/-- The split is a decomposition: the parts concatenate back to the input,
the pathname part has no `?`, and the search part is empty or starts with `?`. -/
theorem splitQ_spec (l : List Char) :
    (splitQ l).1 ++ (splitQ l).2 = l ∧ '?' ∉ (splitQ l).1 ∧
      ((splitQ l).2 = [] ∨ (splitQ l).2.head? = some '?') := by
  induction l with
  | nil => simp [splitQ]
  | cons c cs ih =>
      by_cases hc : c = '?'
      · subst hc; simp [splitQ]
      · obtain ⟨h1, h2, h3⟩ := ih
        refine ⟨by simp [splitQ, hc, h1], ?_, by simpa [splitQ, hc] using h3⟩
        simp [splitQ, hc, h2, Ne.symm hc]

/-- Path escaping is the identity on character lists without `?` or `#`. -/
theorem escPathList_id : ∀ (l : List Char), '?' ∉ l → '#' ∉ l →
    (l.map escPathChar).flatten = l := by
  intro l
  induction l with
  | nil => simp
  | cons c cs ih =>
      intro hq hh
      have hc1 : c ≠ '?' := fun e => hq (e ▸ List.mem_cons_self c cs)
      have hc2 : c ≠ '#' := fun e => hh (e ▸ List.mem_cons_self c cs)
      have hq' : '?' ∉ cs := fun e => hq (List.mem_cons_of_mem c e)
      have hh' : '#' ∉ cs := fun e => hh (List.mem_cons_of_mem c e)
      simp [escPathChar, hc1, hc2, ih hq' hh']

/-- `url.format` leaves a pathname without `?` or `#` unescaped. -/
theorem escPath_id {s : String} (h1 : '?' ∉ s.data) (h2 : '#' ∉ s.data) :
    escPath s = s := by
  unfold escPath
  rw [escPathList_id s.data h1 h2]

/-- Search escaping is the identity on character lists without `#`. -/
theorem escSearchList_id : ∀ (l : List Char), '#' ∉ l →
    (l.map (fun c => if c = '#' then "%23".data else [c])).flatten = l := by
  intro l
  induction l with
  | nil => simp
  | cons c cs ih =>
      intro hh
      have hc : c ≠ '#' := fun e => hh (e ▸ List.mem_cons_self c cs)
      have hh' : '#' ∉ cs := fun e => hh (List.mem_cons_of_mem c e)
      simp [hc, ih hh']

/-- `url.format` leaves a search without `#` unescaped. -/
theorem escSearch_id {s : String} (h : '#' ∉ s.data) : escSearch s = s := by
  unfold escSearch
  rw [escSearchList_id s.data h]

/-- A string never equals itself with a `?` prepended. -/
theorem ne_qmark_append (s : String) : s ≠ "?" ++ s := by
  intro hh
  have hlen := congrArg (fun t => t.data.length) hh
  simp [data_append] at hlen

/-- Formatting a `?`-free, `#`-free pathname with an empty search yields the
pathname itself. -/
theorem formatUrl_empty_search {p : String} (hp1 : '?' ∉ p.data) (hp2 : '#' ∉ p.data) :
    formatUrl { pathname := some p, search := some "" } = p := by
  simp [formatUrl, escPath_id hp1 hp2, escSearch, append_empty_str]

/-- Setting the same querystring again on an already-formatted url is the
identity: the format/parse round trip reproduces the same string. -/
theorem setQuerystring_format (p s : String) (hp1 : '?' ∉ p.data) (hp2 : '#' ∉ p.data)
    (hs : '#' ∉ s.data) :
    setQuerystring (formatUrl { pathname := some p, search := some s }) s =
      formatUrl { pathname := some p, search := some s } := by
  by_cases hse : s = ""
  · subst hse
    rw [formatUrl_empty_search hp1 hp2]
    unfold setQuerystring
    simp [parseUrl, splitQ_not_mem hp1, formatUrl_empty_search hp1 hp2]
  · by_cases hsq : s.data.head? = some '?'
    · have hfu : formatUrl { pathname := some p, search := some s } = p ++ s := by
        simp [formatUrl, escPath_id hp1 hp2, escSearch_id hs, hse, hsq]
      rw [hfu]
      unfold setQuerystring
      have hsd : s.data ≠ [] := fun e => hse (data_eq_nil.mp e)
      have hsplit : splitQ (p.data ++ s.data) = (p.data, s.data) := splitQ_append hp1 hsq
      simp [parseUrl, data_append, hsplit, hsd, mk_data, ne_qmark_append s,
        formatUrl, escPath_id hp1 hp2, escSearch_id hs, hse, hsq]
    · have hs' : '#' ∉ ("?" ++ s).data := by
        rw [data_append]
        intro hmem
        rcases List.mem_append.mp hmem with hmem | hmem
        · simp at hmem
        · exact hs hmem
      have hfu : formatUrl { pathname := some p, search := some s } = p ++ ("?" ++ s) := by
        simp [formatUrl, escSearch_id hs', escPath_id hp1 hp2, hse, hsq]
      rw [hfu]
      unfold setQuerystring
      have hsplit : splitQ (p.data ++ '?' :: s.data) = (p.data, '?' :: s.data) :=
        splitQ_append hp1 rfl
      have hmk : String.mk ('?' :: s.data) = "?" ++ s := rfl
      simp [parseUrl, data_append, hsplit, hmk, mk_data]

/-- C8 fails as stated: a path value containing `?` does not survive the
round trip, because `url.format` percent-escapes `?` in the pathname — the
path reads back as `/a%3Fb`, not `/a?b`. -/
theorem c8_counterexample :
    getPath (setPath "/aaa?x=1" "/a?b") ≠ some "/a?b" ∧
    getPath (setPath "/aaa?x=1" "/a?b") = some "/a%3Fb" := by
  constructor
  · decide
  · decide

/-- C8 (amended): for an origin-form request url without `#`, setting `path`
to a value containing neither `?` nor `#` and reading it back returns exactly
that value with the query string preserved unchanged; and setting
`querystring` a second time with the identical string (itself `#`-free) leaves
the underlying url unchanged. -/
theorem c8_path_roundtrip (u v s : String)
    (_hu : u.data.head? = some '/') (huh : '#' ∉ u.data) :
    (('?' ∉ v.data ∧ '#' ∉ v.data) →
      getPath (setPath u v) = some v ∧
      getQuerystring (setPath u v) = getQuerystring u) ∧
    ('#' ∉ s.data →
      setQuerystring (setQuerystring u s) s = setQuerystring u s) := by
  have hspec := splitQ_spec u.data
  rcases hsp : splitQ u.data with ⟨p1, p2⟩
  rw [hsp] at hspec
  obtain ⟨hu1, hu2, hu3⟩ := hspec
  have hp1h : '#' ∉ p1 := fun e => huh (hu1 ▸ List.mem_append.mpr (Or.inl e))
  have hp2h : '#' ∉ p2 := fun e => huh (hu1 ▸ List.mem_append.mpr (Or.inr e))
  constructor
  · rintro ⟨hv1, hv2⟩
    rcases hu3 with h2nil | h2head
    · subst h2nil
      have hup : u.data = p1 := by simpa using hu1.symm
      by_cases huv : u = v
      · subst huv
        constructor <;> simp [setPath, getPath, parseUrl, hsp]
      · have hset : setPath u v = v := by
          simp [setPath, parseUrl, hsp, huv, formatUrl, escPath_id hv1 hv2, escSearch,
            append_empty_str]
        rw [hset]
        constructor
        · simp [getPath, parseUrl, splitQ_not_mem hv1]
        · simp [getQuerystring, parseUrl, splitQ_not_mem hv1, hsp]
    · have hp2nil : p2 ≠ [] := by
        intro e; rw [e] at h2head; cases h2head
      by_cases hpv : String.mk p1 = v
      · have hset : setPath u v = u := by
          simp [setPath, parseUrl, hsp, hp2nil, hpv]
        rw [hset]
        constructor
        · simp [getPath, parseUrl, hsp, hp2nil, hpv]
        · rfl
      · have hset : setPath u v = v ++ String.mk p2 := by
          simp [setPath, parseUrl, hsp, hp2nil, hpv, formatUrl, escPath_id hv1 hv2,
            escSearch_id (show '#' ∉ (String.mk p2).data from hp2h), h2head,
            data_eq_nil, mk_data]
        rw [hset]
        have hsplit2 : splitQ (v.data ++ p2) = (v.data, p2) := splitQ_append hv1 h2head
        constructor
        · simp [getPath, parseUrl, data_append, hsplit2, hp2nil, mk_data]
        · simp [getQuerystring, parseUrl, data_append, hsplit2, hp2nil, hsp]
  · intro hsh
    rcases hu3 with h2nil | h2head
    · subst h2nil
      have hup : u.data = p1 := by simpa using hu1.symm
      have hq : '?' ∉ u.data := by rw [hup]; exact hu2
      have h1 : setQuerystring u s = formatUrl { pathname := some u, search := some s } := by
        simp [setQuerystring, parseUrl, hsp]
      rw [h1]
      exact setQuerystring_format u s hq huh hsh
    · have hp2nil : p2 ≠ [] := by
        intro e; rw [e] at h2head; cases h2head
      by_cases hqeq : String.mk p2 = "?" ++ s
      · have h1 : setQuerystring u s = u := by
          simp [setQuerystring, parseUrl, hsp, hp2nil, hqeq]
        rw [h1, h1]
      · have h1 : setQuerystring u s =
            formatUrl { pathname := some (String.mk p1), search := some s } := by
          simp [setQuerystring, parseUrl, hsp, hp2nil, hqeq]
        rw [h1]
        exact setQuerystring_format _ s hu2 hp1h hsh

/-- Witness for C8's amended theorem on the spec's example url `/aaa?x=1`. -/
theorem c8_witness :
    getPath (setPath "/aaa?x=1" "/bbb") = some "/bbb" ∧
    getQuerystring (setPath "/aaa?x=1" "/bbb") = "x=1" ∧
    setQuerystring (setQuerystring "/aaa?x=1" "x=1") "x=1" =
      setQuerystring "/aaa?x=1" "x=1" := by
  have h := c8_path_roundtrip "/aaa?x=1" "/bbb" "x=1" (by decide) (by decide)
  refine ⟨(h.1 ⟨by decide, by decide⟩).1, ?_, h.2 (by decide)⟩
  have h2 := (h.1 ⟨by decide, by decide⟩).2
  rw [h2]
  decide

end Koa
